
import Mathlib

/-!
# Verification of the rabbit-farm bot's domain model (src/rabbit_bot.py)

A shallow embedding of the domain functions of `src/rabbit_bot.py` and proofs
about them.  Conventions of the embedding:

* The SQLite database is a `Store`: one Lean list per table, kept in insertion
  order (SQLite returns rows in rowid order here, and rows are only appended,
  never deleted).  `AUTOINCREMENT` ids are `max id + 1`.
* Python `date` objects are represented by their proleptic-Gregorian ordinal
  day number (a `Nat`); `date + timedelta(days=n)` is exactly `ordinal + n`.
  Date columns hold the `strftime("%Y-%m-%d")` string, produced by
  `dateStrOfOrdinal`; `datetime.fromisoformat(...).date()` is `parseIsoDate`.
* Python floats (`REAL` columns) are idealised as exact rationals `ℚ`.
* `sex` is validated to `'M'`/`'F'` by every caller before it reaches
  `add_rabbit` (and the schema has `CHECK(sex IN ('M','F'))`), so it is
  embedded as the two-element type `Sex`.
* SQL `ORDER BY` on a `TEXT` column is byte order of the UTF-8 encoding,
  which on the stored strings coincides with the code-point order `charsLt`
  below; sorting is `List.insertionSort`, which is stable, and the keys used
  by the program are total, so the sorted result is the one SQLite produces.
* `unlock_achievement` is called throughout `src/rabbit_bot.py` but its
  definition does not appear in `src/` (only its callers and the
  `achievements` table declaration do); it is modelled from the spec, see
  its doc comment.
-/

namespace RabbitFarm

/-! ## Calendar arithmetic

`civilToDays`/`daysToCivil` convert between a Gregorian calendar date and a
linear day count (the standard civil-calendar algorithms), matching Python's
`date.toordinal` up to a constant offset, which cancels in every difference
the program computes. -/

def isLeap (y : Nat) : Bool :=
  (y % 4 == 0 && y % 100 != 0) || y % 400 == 0

def daysInMonth (y m : Nat) : Nat :=
  if m = 2 then (if isLeap y then 29 else 28)
  else if m = 4 ∨ m = 6 ∨ m = 9 ∨ m = 11 then 30
  else 31

def civilToDays (y m d : Nat) : Nat :=
  let yy := if m ≤ 2 then y - 1 else y
  let era := yy / 400
  let yoe := yy % 400
  let mp := if 2 < m then m - 3 else m + 9
  let doy := (153 * mp + 2) / 5 + (d - 1)
  let doe := yoe * 365 + yoe / 4 - yoe / 100 + doy
  era * 146097 + doe

def daysToCivil (z : Nat) : Nat × Nat × Nat :=
  let era := z / 146097
  let doe := z % 146097
  let yoe := (doe - doe / 1460 + doe / 36524 - doe / 146096) / 365
  let y := yoe + era * 400
  let doy := doe - (365 * yoe + yoe / 4 - yoe / 100)
  let mp := (5 * doy + 2) / 153
  let d := doy - (153 * mp + 2) / 5 + 1
  let m := if mp < 10 then mp + 3 else mp - 9
  (if m ≤ 2 then y + 1 else y, m, d)

def digitChar (n : Nat) : Char := Char.ofNat (48 + n % 10)

def digitVal (c : Char) : Nat := c.toNat - 48

def pad2 (n : Nat) : String := String.mk [digitChar (n / 10), digitChar n]

def pad4 (n : Nat) : String :=
  String.mk [digitChar (n / 1000), digitChar (n / 100), digitChar (n / 10), digitChar n]

/-- `strftime("%Y-%m-%d")` of the date with ordinal `z`. -/
def dateStrOfOrdinal (z : Nat) : String :=
  let c := daysToCivil z
  pad4 c.1 ++ "-" ++ pad2 c.2.1 ++ "-" ++ pad2 c.2.2

/-- `datetime.fromisoformat(s).date()`, returning the ordinal of the date, or
`none` when the string is not a valid `YYYY-MM-DD` date (the program catches
the `ValueError` and skips such records). -/
def parseIsoDate (s : String) : Option Nat :=
  match s.data with
  | [y1, y2, y3, y4, c1, m1, m2, c2, d1, d2] =>
    if y1.isDigit ∧ y2.isDigit ∧ y3.isDigit ∧ y4.isDigit ∧ c1 = '-' ∧
       m1.isDigit ∧ m2.isDigit ∧ c2 = '-' ∧ d1.isDigit ∧ d2.isDigit then
      let y := 1000 * digitVal y1 + 100 * digitVal y2 + 10 * digitVal y3 + digitVal y4
      let m := 10 * digitVal m1 + digitVal m2
      let d := 10 * digitVal d1 + digitVal d2
      if 1 ≤ y ∧ 1 ≤ m ∧ m ≤ 12 ∧ 1 ≤ d ∧ d ≤ daysInMonth y m then
        some (civilToDays y m d)
      else none
    else none
  | _ => none

/-! ## Byte order on stored strings -/

/-- Code-point lexicographic order on character lists; on the strings this
program stores it equals SQLite's BINARY collation (byte order of UTF-8). -/
def charsLt : List Char → List Char → Bool
  | [], [] => false
  | [], _ :: _ => true
  | _ :: _, [] => false
  | a :: as, b :: bs =>
    if a.toNat < b.toNat then true
    else if b.toNat < a.toNat then false
    else charsLt as bs

def strLtB (a b : String) : Bool := charsLt a.data b.data

/-! ## Schema (`init_db`)

Row types carry the columns the verified operations read or write; the
remaining columns of the schema (`cage`, `section`, `death_date`,
`death_reason`, `photo_file_id`, the feed/task/settings tables) play no part
in the functions below and are omitted. -/

inductive Sex where
  | M : Sex
  | F : Sex
deriving DecidableEq, Repr

structure Rabbit where
  id : Nat
  name : String
  sex : Sex
  mother_id : Option Nat := none
  father_id : Option Nat := none
  status : String := "active"
deriving DecidableEq, Repr

structure Breeding where
  id : Nat
  doe_id : Nat
  buck_id : Nat
  mating_date : String
  expected_due_date : String
  kindling_date : Option String := none
  litter_size : Option Int := none
  weaning_date : Option String := none
  litter_name : Option String := none
deriving DecidableEq, Repr

structure SaleRow where
  id : Nat
  rabbit_id : Nat
  sale_date : String
  price : Option ℚ
  buyer : Option String
deriving DecidableEq, Repr

structure ExpenseRow where
  id : Nat
  exp_date : String
  category : String
  amount : ℚ
  note : Option String := none
deriving DecidableEq, Repr

structure WeightRow where
  id : Nat
  rabbit_id : Nat
  weigh_date : String
  weight_kg : ℚ
deriving DecidableEq, Repr

structure AchievementRow where
  id : Nat
  key : String
  unlocked_date : String
deriving DecidableEq, Repr

structure Store where
  rabbits : List Rabbit := []
  breedings : List Breeding := []
  sales : List SaleRow := []
  expenses : List ExpenseRow := []
  weights : List WeightRow := []
  achievements : List AchievementRow := []
deriving DecidableEq, Repr

def nextId (ids : List Nat) : Nat := ids.foldr max 0 + 1

def nextRabbitId (s : Store) : Nat := nextId (s.rabbits.map (·.id))

def nextBreedingId (s : Store) : Nat := nextId (s.breedings.map (·.id))

def nextSaleId (s : Store) : Nat := nextId (s.sales.map (·.id))

def nextWeightId (s : Store) : Nat := nextId (s.weights.map (·.id))

def nextAchievementId (s : Store) : Nat := nextId (s.achievements.map (·.id))

/-! ## Basic rabbit lookups -/

/-- `get_rabbit`: `SELECT * FROM rabbits WHERE name = ?`, first row or `None`. -/
def get_rabbit (s : Store) (name : String) : Option Rabbit :=
  s.rabbits.find? (fun r => r.name == name)

/-- `get_rabbit_by_id`: `None` input short-circuits, else point lookup by id. -/
def get_rabbit_by_id (s : Store) : Option Nat → Option Rabbit
  | none => none
  | some rid => s.rabbits.find? (fun r => r.id == rid)

/-- Modelled from the spec: the function `unlock_achievement` is referenced by
`add_rabbit`, `record_kindling` and `record_sale` in `src/rabbit_bot.py` but
its definition is absent from `src/` (only the `achievements` table — `key
TEXT UNIQUE NOT NULL, unlocked_date TEXT NOT NULL` — and the call sites are).
Spec: "`unlockAchievement(key) → true if newly unlocked, false if already
unlocked` (idempotent)"; "one row per unique achievement key, recorded once
with an unlock date; re-triggering the same achievement is a no-op". -/
def unlock_achievement (s : Store) (today : Nat) (key : String) : Bool × Store :=
  if s.achievements.any (fun a => a.key == key) then (false, s)
  else
    (true, { s with achievements :=
      s.achievements ++ [{ id := nextAchievementId s, key := key,
                           unlocked_date := dateStrOfOrdinal today }] })

/-- `add_rabbit`: inserts unless the UNIQUE constraint on `name` fires
(`sqlite3.IntegrityError` → `False`); on success runs the rabbit-count
achievement checks and returns `True`. -/
def add_rabbit (s : Store) (today : Nat) (name : String) (sex : Sex) : Bool × Store :=
  if s.rabbits.any (fun r => r.name == name) then (false, s)
  else
    let s1 : Store :=
      { s with rabbits := s.rabbits ++ [{ id := nextRabbitId s, name := name, sex := sex }] }
    let total := s1.rabbits.length
    let s2 := if total = 1 then (unlock_achievement s1 today "first_rabbit").2 else s1
    let s3 := if 10 ≤ total then (unlock_achievement s2 today "ten_rabbits").2 else s2
    let s4 := if 50 ≤ total then (unlock_achievement s3 today "fifty_rabbits").2 else s3
    (true, s4)

/-! ## Inbreeding assessment (`assess_inbreeding`) -/

/-- The parent-id set `set(x for x in [r["mother_id"], r["father_id"]] if x)`:
Python truthiness drops both `None` and `0`. -/
def pyParents (r : Rabbit) : List Nat :=
  (([r.mother_id, r.father_id].filterMap id).filter (fun x => x ≠ 0)).dedup

/-- The grandparent-id set of `assess_inbreeding`: for each truthy parent id
that resolves, the truthy parent ids of that parent. -/
def grandparents_ids (s : Store) (r : Rabbit) : List Nat :=
  ((([r.mother_id, r.father_id].filterMap id).filter (fun x => x ≠ 0)).flatMap
    (fun pid =>
      match s.rabbits.find? (fun p => p.id == pid) with
      | some pr => ([pr.mother_id, pr.father_id].filterMap id).filter (fun x => x ≠ 0)
      | none => [])).dedup

/-- The `full` flag of `assess_inbreeding`:
`r1["mother_id"] and r1["mother_id"] == r2["mother_id"] and r1["father_id"]
and r1["father_id"] == r2["father_id"]`. -/
def fullSiblingFlag (r1 r2 : Rabbit) : Bool :=
  (match r1.mother_id, r2.mother_id with
   | some m1, some m2 => m1 ≠ 0 && m1 == m2
   | _, _ => false) &&
  (match r1.father_id, r2.father_id with
   | some f1, some f2 => f1 ≠ 0 && f1 == f2
   | _, _ => false)

/-- Names of the rabbits behind a list of ids (skipping unresolved ids), in
list order.  (Python iterates a `set` here, whose order is unspecified; this
embedding fixes the mother-then-father discovery order.  No claim depends on
the order inside a message.) -/
def idNames (s : Store) (ids : List Nat) : List String :=
  ids.filterMap (fun pid => (s.rabbits.find? (fun p => p.id == pid)).map (·.name))

/-- The `parents_str` of the sibling messages: names of the shared parent
ids (ids that resolve to no rabbit are skipped), or the fallback text. -/
def sharedParentsStr (s : Store) (ids : List Nat) : String :=
  let parent_names := idNames s ids
  if parent_names = [] then "shared parent"
  else String.intercalate ", " parent_names

/-- `assess_inbreeding(name1, name2) -> (severity, message)`,
severity in `{"error", "danger", "warning", "none"}`. -/
def assess_inbreeding (s : Store) (name1 name2 : String) : String × String :=
  match get_rabbit s name1, get_rabbit s name2 with
  | some r1, some r2 =>
    if r1.id = r2.id then ("error", "❌ Same rabbit.")
    else
      let parents1 := pyParents r1
      let parents2 := pyParents r2
      if r1.id ∈ parents2 ∨ r2.id ∈ parents1 then
        ("danger", "⚠️ DANGEROUS inbreeding: parent–offspring.")
      else
        let common_parents := parents1.inter parents2
        if common_parents ≠ [] then
          let parents_str := sharedParentsStr s common_parents
          if fullSiblingFlag r1 r2 then
            ("danger", "⚠️ DANGEROUS inbreeding: full siblings (parents: " ++ parents_str ++ ").")
          else
            ("danger", "⚠️ DANGEROUS inbreeding: half-siblings (shared parent(s): " ++ parents_str ++ ").")
        else
          let common_gp := (grandparents_ids s r1).inter (grandparents_ids s r2)
          if common_gp ≠ [] then
            let names := idNames s common_gp
            if names ≠ [] then
              ("warning", "⚠️ Related: shared grandparent(s) " ++ String.intercalate ", " names ++ ".")
            else ("warning", "⚠️ Related: shared grandparent(s).")
          else ("none", "✅ No close relation found (parents/grandparents).")
  | _, _ => ("error", "❌ One or both rabbits not found.")

/-! ## Financial aggregation (`get_profit_summary`) -/

/-- SQLite's default `LIKE` folds ASCII upper-case letters (codes 65-90) to
lower case before comparing; every other code point is left unchanged. -/
def likeFoldNat (n : Nat) : Nat :=
  if 65 ≤ n ∧ n ≤ 90 then n + 32 else n

/-- Default-`LIKE` character equality: exact on code points except that
ASCII letters compare case-insensitively. -/
def likeCharEq (p c : Char) : Bool :=
  likeFoldNat p.toNat == likeFoldNat c.toNat

/-- All suffixes of a character list, longest first (the list itself comes
first, `[]` last). -/
def strTails : List Char → List (List Char)
  | [] => [[]]
  | c :: cs => (c :: cs) :: strTails cs

/-- SQLite `LIKE` pattern matching (default build, no `ESCAPE` clause): in
the pattern, `%` (code 37) matches any sequence of zero or more characters,
`_` (code 95) matches exactly one character, and any other character matches
one character under `likeCharEq`. Structural on the pattern: a leading `%`
matches exactly when the rest of the pattern matches some suffix of the
string. -/
def likeMatch : List Char → List Char → Bool
  | [], cs => cs.isEmpty
  | p :: ps, cs =>
    if p.toNat = 37 then (strTails cs).any (fun t => likeMatch ps t)
    else
      match cs with
      | [] => false
      | c :: cs' =>
        if p.toNat = 95 then likeMatch ps cs'
        else likeCharEq p c && likeMatch ps cs'

/-- `s LIKE pat` on strings. -/
def sqlLike (pat s : String) : Bool :=
  likeMatch pat.data s.data

/-- The row filter `get_profit_summary` builds from its `period` argument:
`None` → no filter; a 7-character token with `-` at index 4, or a
4-character all-digit token → `date LIKE period || '%'` with SQLite `LIKE`
semantics (so `_` and `%` inside the token keep their wildcard meaning, and
ASCII letters match case-insensitively); anything else → no filter.
Python's `period.isdigit()` is embedded as `Char.isDigit` on each character;
the two agree on ASCII strings (Python additionally accepts non-ASCII
Unicode digits, so classification statements about the year branch are
scoped to ASCII tokens). -/
def periodKeeps (period : Option String) (d : String) : Bool :=
  match period with
  | none => true
  | some p =>
    if p.data.length = 7 ∧ p.data.get? 4 = some '-' then sqlLike (p ++ "%") d
    else if p.data.length = 4 ∧ p.data.all Char.isDigit then sqlLike (p ++ "%") d
    else true

/-- `get_profit_summary(period) -> (income, expenses, income - expenses)`;
`SUM` ignores `NULL` prices, `COALESCE(..., 0)` makes the empty sum `0`. -/
def get_profit_summary (s : Store) (period : Option String) : ℚ × ℚ × ℚ :=
  let income :=
    (((s.sales.filter (fun x => periodKeeps period x.sale_date)).filterMap (·.price)).foldr (· + ·) 0)
  let expenses :=
    (((s.expenses.filter (fun x => periodKeeps period x.exp_date)).map (·.amount)).foldr (· + ·) 0)
  (income, expenses, income - expenses)

/-! ## Weights and growth (`get_weight_log`, `get_growth_stats`) -/

/-- `ORDER BY weigh_date DESC, id DESC` as a total Boolean key order:
`wDescLeB a b` holds when `a` may come before `b`. -/
def wDescLeB (a b : WeightRow) : Bool :=
  if strLtB b.weigh_date a.weigh_date then true
  else if strLtB a.weigh_date b.weigh_date then false
  else b.id ≤ a.id

def wDescLe (a b : WeightRow) : Prop := wDescLeB a b = true

instance : DecidableRel wDescLe := fun a b => instDecidableEqBool (wDescLeB a b) true

/-- `get_weight_log(name, limit)`:
`SELECT weigh_date, weight_kg FROM weights WHERE rabbit_id = ?
 ORDER BY weigh_date DESC, id DESC LIMIT ?`. -/
def get_weight_log (s : Store) (name : String) (limit : Nat) :
    Option Rabbit × List WeightRow :=
  match get_rabbit s name with
  | none => (none, [])
  | some r =>
    (some r,
     (List.insertionSort wDescLe (s.weights.filter (fun w => w.rabbit_id == r.id))).take limit)

/-- The valid-date prefix of `get_growth_stats`: rows in ascending
`(weigh_date, id)` order, each paired with its parsed date ordinal (rows whose
date does not parse are skipped).  The stored date string is kept alongside
for specification purposes. -/
def growthData (rows : List WeightRow) : List (Nat × ℚ × String) :=
  rows.reverse.filterMap
    (fun w => (parseIsoDate w.weigh_date).map (fun o => (o, w.weight_kg, w.weigh_date)))

/-- `get_growth_stats(name)`: `(has_data, daily_grams, days, gain_kg)`, with
`False, None, None, None` embedded as `none`. -/
def get_growth_stats (s : Store) (name : String) : Option (ℚ × Int × ℚ) :=
  match get_weight_log s name 1000 with
  | (none, _) => none
  | (some _, rows) =>
    if rows.length < 2 then none
    else
      let data := growthData rows
      if data.length < 2 then none
      else
        match data.head?, data.getLast? with
        | some (sd, sw, _), some (ed, ew, _) =>
          let days : Int := (ed : Int) - (sd : Int)
          if days ≤ 0 then none
          else some (((ew - sw) / (days : ℚ)) * 1000, days, ew - sw)
        | _, _ => none

/-! ## Breeding cycle (`add_breeding`, `record_kindling`) -/

def GESTATION_DAYS : Nat := 31

def WEANING_DAYS : Nat := 35

/-- `mating + timedelta(days=GESTATION_DAYS)` in `add_breeding`. -/
def compute_due_date (matingDate : Nat) : Nat := matingDate + GESTATION_DAYS

/-- `kindling + timedelta(days=WEANING_DAYS)` in `record_kindling`. -/
def compute_weaning_date (kindlingDate : Nat) : Nat := kindlingDate + WEANING_DAYS

inductive BreedResult where
  | notFound : BreedResult
  | sexMismatch : BreedResult
  | success : BreedResult
deriving DecidableEq, Repr

/-- `add_breeding(doe_name, buck_name)`: not-found check first, then the sex
check, then the insert with `mating_date = today` and
`expected_due_date = today + GESTATION_DAYS`. -/
def add_breeding (s : Store) (today : Nat) (doe_name buck_name : String) :
    BreedResult × Store :=
  match get_rabbit s doe_name, get_rabbit s buck_name with
  | some doe, some buck =>
    if doe.sex ≠ Sex.F ∨ buck.sex ≠ Sex.M then (.sexMismatch, s)
    else
      (.success,
       { s with breedings := s.breedings ++
          [{ id := nextBreedingId s, doe_id := doe.id, buck_id := buck.id,
             mating_date := dateStrOfOrdinal today,
             expected_due_date := dateStrOfOrdinal (compute_due_date today) }] })
  | _, _ => (.notFound, s)

/-- `ORDER BY DATE(mating_date) DESC` on breedings: on the well-formed date
strings the program writes, `DATE()` is the identity and the order is the
string order; ties keep table order (stable sort). -/
def bDescLeB (a b : Breeding) : Bool := !strLtB a.mating_date b.mating_date

def bDescLe (a b : Breeding) : Prop := bDescLeB a b = true

instance : DecidableRel bDescLe := fun a b => instDecidableEqBool (bDescLeB a b) true

inductive KindlingResult where
  | doeNotFound : KindlingResult
  | noOpenBreeding : KindlingResult
  | success : KindlingResult
deriving DecidableEq, Repr

/-- `record_kindling(doe_name, litter_size, litter_name)`: picks the doe's
open breeding with the latest mating date and closes it with
`kindling_date = today`, the litter size, and
`weaning_date = today + WEANING_DAYS` (the litter name only when given), then
runs the litter/kit achievement checks on the updated table. -/
def record_kindling (s : Store) (today : Nat) (doe_name : String)
    (litter_size : Int) (litter_name : Option String) : KindlingResult × Store :=
  match get_rabbit s doe_name with
  | none => (.doeNotFound, s)
  | some doe =>
    let openB := s.breedings.filter (fun b => b.doe_id == doe.id && b.kindling_date.isNone)
    match (List.insertionSort bDescLe openB).head? with
    | none => (.noOpenBreeding, s)
    | some breeding =>
      let upd : Breeding → Breeding := fun b =>
        if b.id == breeding.id then
          { b with kindling_date := some (dateStrOfOrdinal today),
                   litter_size := some litter_size,
                   weaning_date := some (dateStrOfOrdinal (compute_weaning_date today)),
                   litter_name := match litter_name with
                                  | some ln => some ln
                                  | none => b.litter_name }
        else b
      let s1 : Store := { s with breedings := s.breedings.map upd }
      let litters := (s1.breedings.filter (fun b => b.kindling_date.isSome)).length
      let s2 := if litters = 1 then (unlock_achievement s1 today "first_litter").2 else s1
      let kits : Int := (s1.breedings.filterMap (·.litter_size)).foldr (· + ·) 0
      let s3 := if 50 ≤ kits then (unlock_achievement s2 today "fifty_kits").2 else s2
      let s4 := if 200 ≤ kits then (unlock_achievement s3 today "two_hundred_kits").2 else s3
      (.success, s4)

/-! ## Sales (`record_sale`) -/

inductive SaleResult where
  | notFound : SaleResult
  | success : String → Option ℚ → Option String → SaleResult
deriving DecidableEq, Repr

/-- The committed part of `record_sale`: the `INSERT INTO sales` followed by
`UPDATE rabbits SET status='sold'`, both committed (in that fixed order)
before any achievement processing starts. -/
def record_sale_commit (s : Store) (today : Nat) (name : String)
    (price : Option ℚ) (buyer : Option String) : Option (Rabbit × Store) :=
  match get_rabbit s name with
  | none => none
  | some rabbit =>
    let newSale : SaleRow :=
      { id := nextSaleId s, rabbit_id := rabbit.id,
        sale_date := dateStrOfOrdinal today, price := price, buyer := buyer }
    let s1 : Store := { s with sales := s.sales ++ [newSale] }
    let soldAt : Rabbit → Rabbit :=
      fun x => if x.id == rabbit.id then { x with status := "sold" } else x
    let s2 : Store := { s1 with rabbits := s1.rabbits.map soldAt }
    some (rabbit, s2)

/-- The post-commit achievement step of `record_sale`:
`unlock_achievement("first_sale")`, then `profit > 0 →
unlock_achievement("profit_positive")`. -/
def record_sale_achievements (s : Store) (today : Nat) : Store :=
  let s1 := (unlock_achievement s today "first_sale").2
  if 0 < (get_profit_summary s1 none).2.2 then
    (unlock_achievement s1 today "profit_positive").2
  else s1

/-- `record_sale(name, price, buyer)`. -/
def record_sale (s : Store) (today : Nat) (name : String)
    (price : Option ℚ) (buyer : Option String) : SaleResult × Store :=
  match record_sale_commit s today name price buyer with
  | none => (.notFound, s)
  | some (_, s2) => (.success name price buyer, record_sale_achievements s2 today)

/-- `record_sale` with the post-commit achievement step abstracted as a
possibly-failing transformation `ach` of the committed store: when `ach`
raises (returns `none`), no result reaches the caller (`none`), and the
database keeps the committed state, since both writes were committed before
the achievement step ran. -/
def record_sale_withAch (ach : Store → Option Store) (s : Store) (today : Nat)
    (name : String) (price : Option ℚ) (buyer : Option String) :
    Option SaleResult × Store :=
  match record_sale_commit s today name price buyer with
  | none => (some .notFound, s)
  | some (_, s2) =>
    match ach s2 with
    | some s3 => (some (.success name price buyer), s3)
    | none => (none, s2)

/-! ## Breeding-pair suggestion (`suggest_breeding_pairs`) -/

/-- `ORDER BY name` (ascending) on rabbits. -/
def rNameLeB (a b : Rabbit) : Bool := !strLtB b.name a.name

def rNameLe (a b : Rabbit) : Prop := rNameLeB a b = true

instance : DecidableRel rNameLe := fun a b => instDecidableEqBool (rNameLeB a b) true

/-- `results.sort(key=lambda x: x[0], reverse=True)`: stable descending order
by score. -/
def scoreGe (a b : ℚ × String × String × String) : Prop := b.1 ≤ a.1

instance : DecidableRel scoreGe := fun a b => Rat.instDecidableLe b.1 a.1

/-- The doe-side litter statistics of `suggest_breeding_pairs`:
`COUNT(*)` and `COALESCE(SUM(litter_size), 0)` over her closed breedings. -/
def doeLitterStats (s : Store) (doeId : Nat) : Nat × Int :=
  let closed := s.breedings.filter (fun b => b.doe_id == doeId && b.kindling_date.isSome)
  (closed.length, (closed.filterMap (·.litter_size)).foldr (· + ·) 0)

/-- `SELECT COUNT(*) FROM rabbits WHERE father_id=?`. -/
def buckOffspringCount (s : Store) (buckId : Nat) : Nat :=
  s.rabbits.countP (fun r => r.father_id == some buckId)

/-- The score `suggest_breeding_pairs` gives the pair `(d, b)` (only used on
pairs that are not `"danger"`): severity bonus, doe productivity, optional
growth boost (skipped when `daily_g` is `0.0`, Python falsiness), and the
buck's offspring count. -/
def pairScore (s : Store) (d b : Rabbit) : ℚ :=
  let severity := (assess_inbreeding s d.name b.name).1
  let base : ℚ := if severity = "none" then 5 else if severity = "warning" then 1 else 0
  let stats := doeLitterStats s d.id
  let avg_litter : ℚ := if 0 < stats.1 then (stats.2 : ℚ) / (stats.1 : ℚ) else 0
  let growth : ℚ :=
    match get_growth_stats s d.name with
    | some (daily_g, _, _) => if daily_g ≠ 0 then daily_g / 10 else 0
    | none => 0
  base + avg_litter * 2 + (stats.1 : ℚ) + growth + (buckOffspringCount s b.id : ℚ) * (3 / 10)

/-- `suggest_breeding_pairs(limit)`: scores every active-doe x active-buck
pair that is not classified `"danger"`, sorts descending by score (stable)
and returns the first `limit` entries as `(score, doe, buck, severity)`. -/
def suggest_breeding_pairs (s : Store) (limit : Nat) :
    List (ℚ × String × String × String) :=
  let does := List.insertionSort rNameLe
    (s.rabbits.filter (fun r => r.sex == Sex.F && r.status == "active"))
  let bucks := List.insertionSort rNameLe
    (s.rabbits.filter (fun r => r.sex == Sex.M && r.status == "active"))
  if does = [] ∨ bucks = [] then []
  else
    let results := does.flatMap (fun d =>
      bucks.filterMap (fun b =>
        let severity := (assess_inbreeding s d.name b.name).1
        if severity = "danger" then none
        else some (pairScore s d b, d.name, b.name, severity)))
    (List.insertionSort scoreGe results).take limit

/-! ## Specification-side definitions and concrete stores

Definitions written from the claims' words (for refinement comparison with
the embedded code) and the concrete stores the witness and counterexample
theorems evaluate. -/

def c7Witness : Store := { achievements := [{ id := 1, key := "first_litter", unlocked_date := "2024-01-02" }] }

def c8Store : Store := { rabbits := [{ id := 1, name := "Ash", sex := Sex.M }] }

def wStore : Store := { rabbits := [{ id := 1, name := "Dora", sex := Sex.F }] }

/-- The year-month shape `get_profit_summary` actually tests: length 7 with
`-` at index 4 (the characters are not otherwise checked). -/
def isYearMonthShape (p : String) : Prop :=
  p.data.length = 7 ∧ p.data.get? 4 = some '-'

instance (p : String) : Decidable (isYearMonthShape p) := by
  unfold isYearMonthShape
  exact inferInstance

/-- The 4-digit-year shape: length 4, all digits. -/
def isYearShape (p : String) : Prop :=
  p.data.length = 4 ∧ p.data.all Char.isDigit = true

instance (p : String) : Decidable (isYearShape p) := by
  unfold isYearShape
  exact inferInstance

/-- Income over the sales whose stored date string satisfies `keep`
(the claim's "sums only rows whose stored date string matches",
parameterised by the filter predicate). -/
def incomeWhere (s : Store) (keep : String → Bool) : ℚ :=
  ((s.sales.filter (fun x => keep x.sale_date)).filterMap (·.price)).foldr (· + ·) 0

/-- Expense total over the expenses whose stored date string satisfies
`keep`. -/
def expensesWhere (s : Store) (keep : String → Bool) : ℚ :=
  ((s.expenses.filter (fun x => keep x.exp_date)).map (·.amount)).foldr (· + ·) 0

def c5Store : Store :=
  { sales := [{ id := 1, rabbit_id := 1, sale_date := "2024-05-05",
                price := some 100, buyer := none }] }

/-- The claim's "registered parents" of a rabbit: the parent references that
are set. -/
def registeredParents (r : Rabbit) : List Nat :=
  [r.mother_id, r.father_id].filterMap id

/-- The claim's "one rabbit is a registered parent of the other" (one
direction). -/
def isRegisteredParentOf (p c : Rabbit) : Prop :=
  c.mother_id = some p.id ∨ c.father_id = some p.id

instance (p c : Rabbit) : Decidable (isRegisteredParentOf p c) := by
  unfold isRegisteredParentOf
  exact inferInstance

/-- The claim's registered-grandparent set: the registered parents of each
registered parent that resolves to a stored rabbit. -/
def specGrandparents (s : Store) (r : Rabbit) : List Nat :=
  (registeredParents r).flatMap (fun pid =>
    match s.rabbits.find? (fun q => q.id == pid) with
    | some q => registeredParents q
    | none => [])

/-- The claim's decision tree for the severity, written from the claim's
words: error on unresolved names or the same rabbit, danger on
parent-offspring, danger on a shared registered parent, warning on
intersecting registered-grandparent sets, safe (`"none"`) otherwise. -/
def spec_relatedness (s : Store) (n1 n2 : String) : String :=
  match get_rabbit s n1, get_rabbit s n2 with
  | some r1, some r2 =>
    if r1 = r2 then "error"
    else if isRegisteredParentOf r1 r2 ∨ isRegisteredParentOf r2 r1 then "danger"
    else if (registeredParents r1).inter (registeredParents r2) ≠ [] then "danger"
    else if (specGrandparents s r1).inter (specGrandparents s r2) ≠ [] then "warning"
    else "none"
  | _, _ => "error"

def c3Family : Store := { rabbits := [
  { id := 1, name := "P", sex := Sex.F },
  { id := 2, name := "Q", sex := Sex.M },
  { id := 3, name := "A", sex := Sex.F, mother_id := some 1, father_id := some 2 },
  { id := 4, name := "B", sex := Sex.M, mother_id := some 2, father_id := some 1 } ] }

/-- The valid-date series `get_growth_stats name` works on. -/
def growthDataOf (s : Store) (name : String) : List (Nat × ℚ × String) :=
  growthData (get_weight_log s name 1000).2

def wsG : Store :=
  { rabbits := [{ id := 1, name := "G", sex := Sex.M }],
    weights := [{ id := 1, rabbit_id := 1, weigh_date := "2024-01-01", weight_kg := 1 },
                { id := 2, rabbit_id := 1, weigh_date := "2024-01-11", weight_kg := 6/5 }] }

def bigWeights : List WeightRow :=
  (List.range 1000).map
    (fun i => { id := i + 1, rabbit_id := 1,
                weigh_date := pad4 (2999 - i) ++ "-01-01", weight_kg := 1 })
  ++ [{ id := 1001, rabbit_id := 1, weigh_date := "1500-01-01", weight_kg := 0 }]

def bigStore : Store :=
  { rabbits := [{ id := 1, name := "Big", sex := Sex.M }], weights := bigWeights }

/-- The claim's score formula for a non-danger pair `(d, b)`: relatedness
bonus (Safe `+5`, Warning `+1`) `+ 2 ×` the doe's average litter size `+ 1 ×`
her litter count `+` her daily gain in grams `÷ 10` when growth data is
available `+ 0.3 ×` the buck's recorded-offspring count. -/
def specScore (s : Store) (d b : Rabbit) : ℚ :=
  (if (assess_inbreeding s d.name b.name).1 = "none" then 5 else 1)
  + 2 * (if 0 < (doeLitterStats s d.id).1 then
          ((doeLitterStats s d.id).2 : ℚ) / ((doeLitterStats s d.id).1 : ℚ) else 0)
  + ((doeLitterStats s d.id).1 : ℚ)
  + (match get_growth_stats s d.name with
     | some (daily_g, _, _) => daily_g / 10
     | none => 0)
  + (3 / 10) * (buckOffspringCount s b.id : ℚ)

def c6Store : Store :=
  { rabbits := [{ id := 1, name := "Dora", sex := Sex.F },
                { id := 2, name := "Rex", sex := Sex.M }] }

/-! ## Store well-formedness

Properties every store reachable through the program's writers has: row ids
are unique and positive (`AUTOINCREMENT` starts at 1), rabbit names are
unique (`UNIQUE` on `name`), and parent references are never the id `0`
(`update_rabbit_parents` only writes ids of existing rabbits). -/

structure WFStore (s : Store) : Prop where
  namesNodup : (s.rabbits.map (·.name)).Nodup
  idsNodup : (s.rabbits.map (·.id)).Nodup
  idsPos : ∀ r ∈ s.rabbits, r.id ≠ 0
  parentsPos : ∀ r ∈ s.rabbits, r.mother_id ≠ some 0 ∧ r.father_id ≠ some 0

/-! ## Helper lemmas -/

theorem get_rabbit_mem {s : Store} {n : String} {r : Rabbit}
    (h : get_rabbit s n = some r) : r ∈ s.rabbits ∧ r.name = n := by
  refine ⟨List.mem_of_find?_eq_some h, ?_⟩
  have := List.find?_some h
  simpa using this

theorem get_rabbit_eq_none {s : Store} {n : String}
    (h : get_rabbit s n = none) : ∀ r ∈ s.rabbits, r.name ≠ n := by
  intro r hr
  have := List.find?_eq_none.mp h r hr
  simpa using this

theorem unlock_achievement_tables (s : Store) (t : Nat) (k : String) :
    (unlock_achievement s t k).2.rabbits = s.rabbits ∧
    (unlock_achievement s t k).2.breedings = s.breedings ∧
    (unlock_achievement s t k).2.sales = s.sales ∧
    (unlock_achievement s t k).2.expenses = s.expenses ∧
    (unlock_achievement s t k).2.weights = s.weights := by
  unfold unlock_achievement
  split <;> exact ⟨rfl, rfl, rfl, rfl, rfl⟩

theorem record_sale_achievements_tables (s : Store) (t : Nat) :
    (record_sale_achievements s t).rabbits = s.rabbits ∧
    (record_sale_achievements s t).sales = s.sales := by
  unfold record_sale_achievements
  constructor
  · dsimp only
    split <;> simp [(unlock_achievement_tables _ _ _).1]
  · dsimp only
    split <;> simp [(unlock_achievement_tables _ _ _).2.2.1]

/-- Helper: an achievement-unlock guarded by any condition leaves `rabbits`
unchanged. -/
theorem ite_unlock_rabbits (c : Prop) [Decidable c] (st : Store) (t : Nat) (k : String) :
    (if c then (unlock_achievement st t k).2 else st).rabbits = st.rabbits := by
  split
  · exact (unlock_achievement_tables st t k).1
  · rfl

/-- Helper: an achievement-unlock guarded by any condition leaves `breedings`
unchanged. -/
theorem ite_unlock_breedings (c : Prop) [Decidable c] (st : Store) (t : Nat) (k : String) :
    (if c then (unlock_achievement st t k).2 else st).breedings = st.breedings := by
  split
  · exact (unlock_achievement_tables st t k).2.1
  · rfl

/-- `C9`: for every mating ordinal `d`, `compute_due_date d = d + 31`, for
every kindling ordinal `k`, `compute_weaning_date k = k + 35`; a successful
`add_breeding` stores `mating_date = today` and
`expected_due_date = today + 31 days`, and a successful `record_kindling`
stores `kindling_date = today`, the litter size and
`weaning_date = today + 35 days` (dates as their `%Y-%m-%d` strings). -/
theorem breeding_date_arithmetic (s : Store) (today : Nat) (dn bn : String)
    (ls : Int) (ln : Option String) :
    (∀ d : Nat, compute_due_date d = d + 31) ∧
    (∀ k : Nat, compute_weaning_date k = k + 35) ∧
    ((add_breeding s today dn bn).1 = .success →
      ∃ b ∈ (add_breeding s today dn bn).2.breedings,
        b.mating_date = dateStrOfOrdinal today ∧
        b.expected_due_date = dateStrOfOrdinal (today + 31)) ∧
    ((record_kindling s today dn ls ln).1 = .success →
      ∃ b ∈ (record_kindling s today dn ls ln).2.breedings,
        b.kindling_date = some (dateStrOfOrdinal today) ∧
        b.litter_size = some ls ∧
        b.weaning_date = some (dateStrOfOrdinal (today + 35))) := by
  refine ⟨fun _ => rfl, fun _ => rfl, ?_, ?_⟩
  · intro hs
    unfold add_breeding at hs ⊢
    cases h1 : get_rabbit s dn with
    | none => rw [h1] at hs; exact absurd hs (by simp)
    | some doe =>
      cases h2 : get_rabbit s bn with
      | none => rw [h1, h2] at hs; exact absurd hs (by simp)
      | some buck =>
        rw [h1, h2] at hs
        dsimp only at hs ⊢
        by_cases hsex : doe.sex ≠ Sex.F ∨ buck.sex ≠ Sex.M
        · rw [if_pos hsex] at hs
          exact absurd hs (by simp)
        · rw [if_neg hsex]
          exact ⟨_, List.mem_append_right _ (List.mem_singleton_self _), rfl, rfl⟩
  · intro hs
    unfold record_kindling at hs ⊢
    cases h1 : get_rabbit s dn with
    | none => rw [h1] at hs; exact absurd hs (by simp)
    | some doe =>
      rw [h1] at hs
      dsimp only at hs ⊢
      cases h2 : (List.insertionSort bDescLe
          (s.breedings.filter (fun b => b.doe_id == doe.id && b.kindling_date.isNone))).head? with
      | none => rw [h2] at hs; exact absurd hs (by simp)
      | some br =>
        have hbr_mem : br ∈ s.breedings := by
          have h3 := List.mem_of_mem_head? h2
          have h4 := (List.perm_insertionSort bDescLe _).mem_iff.mp h3
          exact List.mem_of_mem_filter h4
        dsimp only at hs ⊢
        rw [ite_unlock_breedings, ite_unlock_breedings, ite_unlock_breedings]
        refine ⟨_, List.mem_map_of_mem _ hbr_mem, ?_⟩
        simp [compute_weaning_date, WEANING_DAYS]

/-- `C7`: `unlock_achievement` is idempotent: on a store with no row for
`key`, the first call returns `true` and stores exactly one row for `key`,
dated with the first call's date; a second call (at any later date) returns
`false` and leaves the store — the original date included — unchanged. -/
theorem unlock_achievement_idempotent (s : Store) (t1 t2 : Nat) (key : String)
    (hfresh : ∀ a ∈ s.achievements, a.key ≠ key) :
    (unlock_achievement s t1 key).1 = true ∧
    ((unlock_achievement s t1 key).2.achievements.filter (fun a => a.key == key)).map
        (·.unlocked_date) = [dateStrOfOrdinal t1] ∧
    unlock_achievement (unlock_achievement s t1 key).2 t2 key =
      (false, (unlock_achievement s t1 key).2) := by
  have hany : s.achievements.any (fun a => a.key == key) = false := by
    rw [List.any_eq_false]
    intro a ha
    simpa using hfresh a ha
  have hfilter : s.achievements.filter (fun a => a.key == key) = [] := by
    rw [List.filter_eq_nil_iff]
    intro a ha
    simpa using hfresh a ha
  refine ⟨?_, ?_, ?_⟩
  · simp [unlock_achievement, hany]
  · simp [unlock_achievement, hany, List.filter_append, hfilter]
  · have hmem : ∃ a ∈ (unlock_achievement s t1 key).2.achievements, (a.key == key) = true := by
      refine ⟨{ id := nextAchievementId s, key := key, unlocked_date := dateStrOfOrdinal t1 },
        ?_, by simp⟩
      simp [unlock_achievement, hany]
    have hany2 : (unlock_achievement s t1 key).2.achievements.any (fun a => a.key == key) = true :=
      List.any_eq_true.mpr hmem
    unfold unlock_achievement
    rw [unlock_achievement] at hany2
    rw [hany] at hany2 ⊢
    simp only [Bool.false_eq_true, if_false] at hany2 ⊢
    rw [hany2]
    simp

/-- Witness for `C7` at a concrete store that has an unrelated unlock. -/
theorem unlock_achievement_idempotent_witness :
    (∀ a ∈ c7Witness.achievements, a.key ≠ "first_sale") ∧
    ((unlock_achievement c7Witness 738000 "first_sale").1 = true ∧
    ((unlock_achievement c7Witness 738000 "first_sale").2.achievements.filter
        (fun a => a.key == "first_sale")).map (·.unlocked_date) = [dateStrOfOrdinal 738000] ∧
    unlock_achievement (unlock_achievement c7Witness 738000 "first_sale").2 738123 "first_sale" =
      (false, (unlock_achievement c7Witness 738000 "first_sale").2)) :=
  ⟨by decide, unlock_achievement_idempotent c7Witness 738000 738123 "first_sale" (by decide)⟩

/-- `C2`: `add_rabbit` fails (returns `False`, the duplicate-name error) and
changes nothing exactly when a rabbit with the same name (case-sensitive
exact match) exists; for any non-colliding name it succeeds, whatever the
store holds, and the new rabbit is stored with the requested name and sex and
the default `active` status. -/
theorem add_rabbit_spec (s : Store) (today : Nat) (name : String) (sex : Sex) :
    ((∃ r ∈ s.rabbits, r.name = name) → add_rabbit s today name sex = (false, s)) ∧
    ((∀ r ∈ s.rabbits, r.name ≠ name) →
      (add_rabbit s today name sex).1 = true ∧
      ∃ r ∈ (add_rabbit s today name sex).2.rabbits,
        r.name = name ∧ r.sex = sex ∧ r.status = "active") := by
  constructor
  · rintro ⟨r, hr, hname⟩
    have hany : s.rabbits.any (fun r => r.name == name) = true :=
      List.any_eq_true.mpr ⟨r, hr, by simp [hname]⟩
    simp [add_rabbit, hany]
  · intro hfresh
    have hany : s.rabbits.any (fun r => r.name == name) = false := by
      rw [List.any_eq_false]
      intro a ha
      simpa using hfresh a ha
    unfold add_rabbit
    rw [hany]
    simp only [Bool.false_eq_true, if_false]
    dsimp only
    refine ⟨by simp, ?_⟩
    rw [ite_unlock_rabbits, ite_unlock_rabbits, ite_unlock_rabbits]
    exact ⟨_, List.mem_append_right _ (List.mem_singleton_self _), by simp⟩

/-- `C8` (amended): `add_breeding` checks existence of both names first and
returns the not-found error when either is missing — even when the other
name resolves to a rabbit of the wrong sex; the sex-mismatch error is
returned exactly when both names resolve and the doe is not Female or the
buck is not Male. -/
theorem add_breeding_error_precedence (s : Store) (today : Nat) (dn bn : String) :
    ((get_rabbit s dn = none ∨ get_rabbit s bn = none) →
      add_breeding s today dn bn = (.notFound, s)) ∧
    (∀ doe buck, get_rabbit s dn = some doe → get_rabbit s bn = some buck →
      (doe.sex ≠ Sex.F ∨ buck.sex ≠ Sex.M) →
      add_breeding s today dn bn = (.sexMismatch, s)) := by
  constructor
  · rintro (h | h)
    · unfold add_breeding
      rw [h]
    · unfold add_breeding
      rw [h]
      cases get_rabbit s dn <;> rfl
  · intro doe buck h1 h2 hsex
    unfold add_breeding
    rw [h1, h2]
    dsimp only
    rw [if_pos hsex]

/-- Counterexample to `C8` as stated: the doe name resolves to a Male rabbit
while the buck name resolves to nothing, and `add_breeding` answers
not-found, not sex-mismatch. -/
theorem add_breeding_error_precedence_cx :
    (get_rabbit c8Store "Ash").map (·.sex) = some Sex.M ∧
    get_rabbit c8Store "Nix" = none ∧
    (add_breeding c8Store 738000 "Ash" "Nix").1 = BreedResult.notFound ∧
    (add_breeding c8Store 738000 "Ash" "Nix").1 ≠ BreedResult.sexMismatch := by
  decide

/-- `C1`: `record_sale` on an unresolved name returns the not-found result
and leaves the store unchanged; on a resolved name it returns the success
result after inserting the sale row and setting the rabbit's status to
`"sold"`.  Both outcomes are returned values of the (total) function — the
operation does not abort. -/
theorem record_sale_spec (s : Store) (today : Nat) (name : String)
    (price : Option ℚ) (buyer : Option String) :
    (get_rabbit s name = none → record_sale s today name price buyer = (.notFound, s)) ∧
    (∀ r, get_rabbit s name = some r →
      (record_sale s today name price buyer).1 = SaleResult.success name price buyer ∧
      (∃ sale ∈ (record_sale s today name price buyer).2.sales,
          sale.rabbit_id = r.id ∧ sale.sale_date = dateStrOfOrdinal today ∧
          sale.price = price ∧ sale.buyer = buyer) ∧
      (∀ x ∈ (record_sale s today name price buyer).2.rabbits,
          x.id = r.id → x.status = "sold")) := by
  constructor
  · intro h
    unfold record_sale record_sale_commit
    rw [h]
  · intro r h
    unfold record_sale record_sale_commit
    rw [h]
    dsimp only
    refine ⟨rfl, ?_, ?_⟩
    · rw [(record_sale_achievements_tables _ _).2]
      exact ⟨_, List.mem_append_right _ (List.mem_singleton_self _), rfl, rfl, rfl, rfl⟩
    · rw [(record_sale_achievements_tables _ _).1]
      intro x hx hid
      rcases List.mem_map.mp hx with ⟨y, _, rfl⟩
      by_cases hyid : (y.id == r.id) = true
      · simp [hyid]
      · rw [if_neg hyid] at hid ⊢
        exact absurd (by simpa using hid) (by simpa using hyid)

/-- `C10`: `record_sale` commits the sale insert and then the status update
before any achievement processing; with the (modelled) achievement step
abstracted as an arbitrary possibly-failing transformation `ach`, a failure
of `ach` leaves the caller without a success result while the committed
store — the sale row present and the rabbit marked sold — remains. -/
theorem record_sale_commit_persists (ach : Store → Option Store) (s : Store)
    (today : Nat) (name : String) (price : Option ℚ) (buyer : Option String)
    (r : Rabbit) (hr : get_rabbit s name = some r) :
    ∃ s2, record_sale_commit s today name price buyer = some (r, s2) ∧
      (∃ sale ∈ s2.sales, sale.rabbit_id = r.id ∧
          sale.sale_date = dateStrOfOrdinal today ∧
          sale.price = price ∧ sale.buyer = buyer) ∧
      (∀ x ∈ s2.rabbits, x.id = r.id → x.status = "sold") ∧
      (ach s2 = none →
        record_sale_withAch ach s today name price buyer = (none, s2)) ∧
      record_sale s today name price buyer =
        (SaleResult.success name price buyer, record_sale_achievements s2 today) := by
  obtain ⟨s2, hc, hsales, hrabb⟩ :
      ∃ s2, record_sale_commit s today name price buyer = some (r, s2) ∧
        s2.sales = s.sales ++
          [{ id := nextSaleId s, rabbit_id := r.id,
             sale_date := dateStrOfOrdinal today, price := price, buyer := buyer }] ∧
        s2.rabbits = s.rabbits.map
          (fun x => if x.id == r.id then { x with status := "sold" } else x) := by
    unfold record_sale_commit
    rw [hr]
    exact ⟨_, rfl, rfl, rfl⟩
  refine ⟨s2, hc, ?_, ?_, ?_, ?_⟩
  · rw [hsales]
    exact ⟨_, List.mem_append_right _ (List.mem_singleton_self _), rfl, rfl, rfl, rfl⟩
  · rw [hrabb]
    intro x hx hid
    rcases List.mem_map.mp hx with ⟨y, _, rfl⟩
    by_cases hyid : (y.id == r.id) = true
    · simp [hyid]
    · rw [if_neg hyid] at hid ⊢
      exact absurd (by simpa using hid) (by simpa using hyid)
  · intro hfail
    unfold record_sale_withAch
    rw [hc]
    dsimp only
    rw [hfail]
  · unfold record_sale
    rw [hc]

/-- Witness for `C10` with a failing achievement step. -/
theorem record_sale_commit_persists_witness :
    get_rabbit wStore "Dora" = some { id := 1, name := "Dora", sex := Sex.F } ∧
    (∃ s2, record_sale_commit wStore 738000 "Dora" (some 50) none =
        some ({ id := 1, name := "Dora", sex := Sex.F }, s2) ∧
      (∃ sale ∈ s2.sales, sale.rabbit_id = Rabbit.id { id := 1, name := "Dora", sex := Sex.F } ∧
          sale.sale_date = dateStrOfOrdinal 738000 ∧
          sale.price = some 50 ∧ sale.buyer = none) ∧
      (∀ x ∈ s2.rabbits, x.id = Rabbit.id { id := 1, name := "Dora", sex := Sex.F } →
          x.status = "sold") ∧
      ((fun _ => none : Store → Option Store) s2 = none →
        record_sale_withAch (fun _ => none) wStore 738000 "Dora" (some 50) none = (none, s2)) ∧
      record_sale wStore 738000 "Dora" (some 50) none =
        (SaleResult.success "Dora" (some 50) none, record_sale_achievements s2 738000)) :=
  ⟨by decide,
   record_sale_commit_persists (fun _ => none) wStore 738000 "Dora" (some 50) none
     { id := 1, name := "Dora", sex := Sex.F } (by decide)⟩

/-! ## C5: period filtering in `get_profit_summary` -/

/-- `C5` (amended): `profit = income − expenses` for every period argument;
no period sums everything; a token of the year-month shape (length 7,
`-` at index 4 — its other characters unchecked) or the 4-digit-year shape is
used as a SQL `LIKE token || '%'` filter on the stored date strings (so `_`
and `%` in the token keep their wildcard meaning and ASCII letters match
case-insensitively); every other token falls back to the all-time sums. The
fallback clause is stated for ASCII tokens, on which the embedded digit test
coincides with Python's `str.isdigit`. -/
theorem get_profit_summary_periods (s : Store) (p : String) :
    (∀ q : Option String, (get_profit_summary s q).2.2 =
        (get_profit_summary s q).1 - (get_profit_summary s q).2.1) ∧
    get_profit_summary s none =
      (incomeWhere s (fun _ => true), expensesWhere s (fun _ => true),
       incomeWhere s (fun _ => true) - expensesWhere s (fun _ => true)) ∧
    (isYearMonthShape p ∨ isYearShape p →
      get_profit_summary s (some p) =
        (incomeWhere s (fun d => sqlLike (p ++ "%") d),
         expensesWhere s (fun d => sqlLike (p ++ "%") d),
         incomeWhere s (fun d => sqlLike (p ++ "%") d) -
           expensesWhere s (fun d => sqlLike (p ++ "%") d))) ∧
    (p.data.all (fun c => c.toNat ≤ 127) = true →
      ¬ (isYearMonthShape p ∨ isYearShape p) →
      get_profit_summary s (some p) = get_profit_summary s none) := by
  refine ⟨fun q => rfl, rfl, ?_, ?_⟩
  · intro h
    have hk : ∀ d, periodKeeps (some p) d = sqlLike (p ++ "%") d := by
      intro d
      unfold periodKeeps
      dsimp only
      unfold isYearMonthShape isYearShape at h
      rcases h with h | h
      · rw [if_pos h]
      · have h7 : ¬ (p.data.length = 7 ∧ p.data.get? 4 = some '-') := by
          rintro ⟨h7, -⟩
          rw [h.1] at h7
          exact absurd h7 (by norm_num)
        rw [if_neg h7, if_pos h]
    simp only [get_profit_summary, incomeWhere, expensesWhere, hk]
  · intro _hascii h
    have hk : ∀ d, periodKeeps (some p) d = true := by
      intro d
      unfold periodKeeps
      dsimp only
      unfold isYearMonthShape isYearShape at h
      rw [if_neg (fun hc => h (Or.inl hc)), if_neg (fun hc => h (Or.inr hc))]
    simp only [get_profit_summary, hk]
    rfl

/-- Counterexample to `C5` as stated: `"aaaa-aa"` is not a year or year-month
token (it has no digit at all), so the claim's fallback clause predicts the
all-time result, but `get_profit_summary` uses it as a `LIKE 'aaaa-aa%'`
filter (its shape test only checks length and the dash), which matches no
stored date, and returns zero sums. -/
theorem profit_malformed_period_cx :
    ("aaaa-aa".data.all Char.isDigit) = false ∧
    get_profit_summary c5Store (some "aaaa-aa") = (0, 0, 0) ∧
    get_profit_summary c5Store none = (100, 0, 100) ∧
    get_profit_summary c5Store (some "aaaa-aa") ≠ get_profit_summary c5Store none := by
  have h1 : get_profit_summary c5Store (some "aaaa-aa") = (0, 0, 0) := by
    simp [get_profit_summary, periodKeeps, c5Store, sqlLike, likeMatch,
      likeCharEq, likeFoldNat, strTails]
  have h2 : get_profit_summary c5Store none = (100, 0, 100) := by
    simp [get_profit_summary, periodKeeps, c5Store]
  refine ⟨by decide, h1, h2, ?_⟩
  rw [h1, h2]
  intro hcontra
  exact absurd (congrArg (fun t => t.1) hcontra) (by norm_num)

/-! ## C3: relatedness classification -/

theorem mem_registeredParents {r : Rabbit} {x : Nat} :
    x ∈ registeredParents r ↔ r.mother_id = some x ∨ r.father_id = some x := by
  simp only [registeredParents, List.mem_filterMap, List.mem_cons, List.mem_singleton,
    List.not_mem_nil, or_false, id]
  constructor
  · rintro ⟨a, (rfl | rfl), h⟩
    · exact Or.inl h
    · exact Or.inr h
  · rintro (h | h)
    · exact ⟨_, Or.inl rfl, h⟩
    · exact ⟨_, Or.inr rfl, h⟩

theorem mem_pyParents {r : Rabbit} {x : Nat} :
    x ∈ pyParents r ↔ (r.mother_id = some x ∨ r.father_id = some x) ∧ x ≠ 0 := by
  unfold pyParents
  rw [List.mem_dedup, List.mem_filter]
  constructor
  · rintro ⟨h1, h2⟩
    exact ⟨mem_registeredParents.mp h1, by simpa using h2⟩
  · rintro ⟨h1, h2⟩
    exact ⟨mem_registeredParents.mpr h1, by simpa using h2⟩

theorem registeredParents_ne_zero {s : Store} {r : Rabbit} {x : Nat}
    (hwf : WFStore s) (hr : r ∈ s.rabbits) (hx : x ∈ registeredParents r) : x ≠ 0 := by
  rintro rfl
  rcases mem_registeredParents.mp hx with h | h
  · exact (hwf.parentsPos r hr).1 h
  · exact (hwf.parentsPos r hr).2 h

theorem mem_pyParents_iff_registered {s : Store} {r : Rabbit} {x : Nat}
    (hwf : WFStore s) (hr : r ∈ s.rabbits) :
    x ∈ pyParents r ↔ x ∈ registeredParents r := by
  rw [mem_pyParents, mem_registeredParents]
  constructor
  · exact fun h => h.1
  · intro h
    exact ⟨h, registeredParents_ne_zero hwf hr (mem_registeredParents.mpr h)⟩

theorem rabbit_id_inj {s : Store} {r1 r2 : Rabbit} (hwf : WFStore s)
    (h1 : r1 ∈ s.rabbits) (h2 : r2 ∈ s.rabbits) (h : r1.id = r2.id) : r1 = r2 :=
  List.inj_on_of_nodup_map hwf.idsNodup h1 h2 h

theorem inter_ne_nil_iff {l1 l2 : List Nat} :
    l1.inter l2 ≠ [] ↔ ∃ a, a ∈ l1 ∧ a ∈ l2 := by
  rw [Ne, List.eq_nil_iff_forall_not_mem]
  push_neg
  constructor
  · rintro ⟨a, ha⟩
    exact ⟨a, List.mem_inter_iff.mp ha⟩
  · rintro ⟨a, ha⟩
    exact ⟨a, List.mem_inter_iff.mpr ha⟩

theorem mem_grandparents_iff {s : Store} {r : Rabbit} {g : Nat}
    (hwf : WFStore s) (hr : r ∈ s.rabbits) :
    g ∈ grandparents_ids s r ↔ g ∈ specGrandparents s r := by
  unfold grandparents_ids specGrandparents
  rw [List.mem_dedup]
  simp only [List.mem_flatMap]
  constructor
  · rintro ⟨pid, hpid, hg⟩
    refine ⟨pid, (List.mem_filter.mp hpid).1, ?_⟩
    cases hfind : s.rabbits.find? (fun q => q.id == pid) with
    | none =>
      rw [hfind] at hg
      exact absurd hg (List.not_mem_nil g)
    | some pr =>
      rw [hfind] at hg
      exact (List.mem_filter.mp hg).1
  · rintro ⟨pid, hpid, hg⟩
    have hpid0 : pid ≠ 0 := registeredParents_ne_zero hwf hr hpid
    refine ⟨pid, List.mem_filter.mpr ⟨hpid, by simp [hpid0]⟩, ?_⟩
    cases hfind : s.rabbits.find? (fun q => q.id == pid) with
    | none =>
      rw [hfind] at hg
      exact absurd hg (List.not_mem_nil g)
    | some pr =>
      rw [hfind] at hg
      have hprmem : pr ∈ s.rabbits := List.mem_of_find?_eq_some hfind
      have hg0 : g ≠ 0 := registeredParents_ne_zero hwf hprmem hg
      exact List.mem_filter.mpr ⟨hg, by simp [hg0]⟩

theorem fullSiblingFlag_iff {r1 r2 : Rabbit} :
    fullSiblingFlag r1 r2 = true ↔
      ((∃ m, m ≠ 0 ∧ r1.mother_id = some m ∧ r2.mother_id = some m) ∧
       (∃ f, f ≠ 0 ∧ r1.father_id = some f ∧ r2.father_id = some f)) := by
  unfold fullSiblingFlag
  cases hm1 : r1.mother_id <;> cases hm2 : r2.mother_id <;>
    cases hf1 : r1.father_id <;> cases hf2 : r2.father_id <;>
    (simp; try aesop)

/-- `C3` (amended): under the store invariants, `assess_inbreeding`
classifies exactly as the claim's decision tree (error / parent-offspring
danger / shared-parent danger / shared-grandparent warning / safe), and in
the shared-parent case the message wording is full-sibling exactly when the
two rabbits have the same registered mother and the same registered father
(positional match, both set) and half-sibling otherwise — not, as the claim
states, whenever both registered parents are shared as a set. -/
theorem assess_inbreeding_spec (s : Store) (n1 n2 : String) (hwf : WFStore s) :
    (assess_inbreeding s n1 n2).1 = spec_relatedness s n1 n2 ∧
    (∀ r1 r2, get_rabbit s n1 = some r1 → get_rabbit s n2 = some r2 →
      r1 ≠ r2 →
      ¬ (isRegisteredParentOf r1 r2 ∨ isRegisteredParentOf r2 r1) →
      (registeredParents r1).inter (registeredParents r2) ≠ [] →
      ((((∃ m, m ≠ 0 ∧ r1.mother_id = some m ∧ r2.mother_id = some m) ∧
         (∃ f, f ≠ 0 ∧ r1.father_id = some f ∧ r2.father_id = some f)) →
        (assess_inbreeding s n1 n2).2 =
          "⚠️ DANGEROUS inbreeding: full siblings (parents: " ++
            sharedParentsStr s ((pyParents r1).inter (pyParents r2)) ++ ").") ∧
       (¬ ((∃ m, m ≠ 0 ∧ r1.mother_id = some m ∧ r2.mother_id = some m) ∧
           (∃ f, f ≠ 0 ∧ r1.father_id = some f ∧ r2.father_id = some f)) →
        (assess_inbreeding s n1 n2).2 =
          "⚠️ DANGEROUS inbreeding: half-siblings (shared parent(s): " ++
            sharedParentsStr s ((pyParents r1).inter (pyParents r2)) ++ ")."))) := by
  constructor
  · unfold assess_inbreeding spec_relatedness
    cases hg1 : get_rabbit s n1 with
    | none => rfl
    | some r1 =>
      cases hg2 : get_rabbit s n2 with
      | none => rfl
      | some r2 =>
        dsimp only
        have hr1 : r1 ∈ s.rabbits := (get_rabbit_mem hg1).1
        have hr2 : r2 ∈ s.rabbits := (get_rabbit_mem hg2).1
        have e2 : (r1.id ∈ pyParents r2 ∨ r2.id ∈ pyParents r1) ↔
            (isRegisteredParentOf r1 r2 ∨ isRegisteredParentOf r2 r1) := by
          unfold isRegisteredParentOf
          rw [mem_pyParents, mem_pyParents]
          constructor
          · rintro (h | h)
            · exact Or.inl h.1
            · exact Or.inr h.1
          · rintro (h | h)
            · exact Or.inl ⟨h, hwf.idsPos r1 hr1⟩
            · exact Or.inr ⟨h, hwf.idsPos r2 hr2⟩
        have e3 : ((pyParents r1).inter (pyParents r2) ≠ []) ↔
            ((registeredParents r1).inter (registeredParents r2) ≠ []) := by
          rw [inter_ne_nil_iff, inter_ne_nil_iff]
          constructor
          · rintro ⟨a, ha1, ha2⟩
            exact ⟨a, (mem_pyParents_iff_registered hwf hr1).mp ha1,
                      (mem_pyParents_iff_registered hwf hr2).mp ha2⟩
          · rintro ⟨a, ha1, ha2⟩
            exact ⟨a, (mem_pyParents_iff_registered hwf hr1).mpr ha1,
                      (mem_pyParents_iff_registered hwf hr2).mpr ha2⟩
        have e4 : ((grandparents_ids s r1).inter (grandparents_ids s r2) ≠ []) ↔
            ((specGrandparents s r1).inter (specGrandparents s r2) ≠ []) := by
          rw [inter_ne_nil_iff, inter_ne_nil_iff]
          constructor
          · rintro ⟨a, ha1, ha2⟩
            exact ⟨a, (mem_grandparents_iff hwf hr1).mp ha1,
                      (mem_grandparents_iff hwf hr2).mp ha2⟩
          · rintro ⟨a, ha1, ha2⟩
            exact ⟨a, (mem_grandparents_iff hwf hr1).mpr ha1,
                      (mem_grandparents_iff hwf hr2).mpr ha2⟩
        by_cases hid : r1 = r2
        · rw [if_pos (congrArg Rabbit.id hid), if_pos hid]
        · rw [if_neg (fun h => hid (rabbit_id_inj hwf hr1 hr2 h)), if_neg hid]
          by_cases hpo : isRegisteredParentOf r1 r2 ∨ isRegisteredParentOf r2 r1
          · rw [if_pos (e2.mpr hpo), if_pos hpo]
          · rw [if_neg (fun h => hpo (e2.mp h)), if_neg hpo]
            by_cases hsib : (registeredParents r1).inter (registeredParents r2) ≠ []
            · rw [if_pos (e3.mpr hsib), if_pos hsib]
              split <;> rfl
            · rw [if_neg (fun h => hsib (e3.mp h)), if_neg hsib]
              by_cases hgp : (specGrandparents s r1).inter (specGrandparents s r2) ≠ []
              · rw [if_pos (e4.mpr hgp), if_pos hgp]
                split <;> rfl
              · rw [if_neg (fun h => hgp (e4.mp h)), if_neg hgp]
  · intro r1 r2 hg1 hg2 hne hnpo hsib
    have hr1 : r1 ∈ s.rabbits := (get_rabbit_mem hg1).1
    have hr2 : r2 ∈ s.rabbits := (get_rabbit_mem hg2).1
    unfold assess_inbreeding
    rw [hg1, hg2]
    dsimp only
    rw [if_neg (fun h => hne (rabbit_id_inj hwf hr1 hr2 h))]
    have e2 : ¬ (r1.id ∈ pyParents r2 ∨ r2.id ∈ pyParents r1) := by
      rintro (h | h)
      · exact hnpo (Or.inl ((mem_pyParents.mp h).1))
      · exact hnpo (Or.inr ((mem_pyParents.mp h).1))
    rw [if_neg e2]
    have e3 : (pyParents r1).inter (pyParents r2) ≠ [] := by
      rcases inter_ne_nil_iff.mp hsib with ⟨a, ha1, ha2⟩
      exact inter_ne_nil_iff.mpr ⟨a, (mem_pyParents_iff_registered hwf hr1).mpr ha1,
        (mem_pyParents_iff_registered hwf hr2).mpr ha2⟩
    rw [if_pos e3]
    constructor
    · intro hcrit
      rw [if_pos (fullSiblingFlag_iff.mpr hcrit)]
    · intro hcrit
      rw [if_neg (fun h => hcrit (fullSiblingFlag_iff.mp h))]

/-- Counterexample to `C3` as stated: rabbits `A` and `B` share both
registered parents (as a set: `{P, Q}`), but because the references are
positionally swapped, the classification message uses the half-sibling
wording, not the full-sibling wording the claim requires for "both
registered parents are shared". -/
theorem assess_sibling_wording_cx :
    (get_rabbit c3Family "A").map (fun r => (r.mother_id, r.father_id)) =
      some (some 1, some 2) ∧
    (get_rabbit c3Family "B").map (fun r => (r.mother_id, r.father_id)) =
      some (some 2, some 1) ∧
    assess_inbreeding c3Family "A" "B" =
      ("danger", "⚠️ DANGEROUS inbreeding: half-siblings (shared parent(s): P, Q).") := by
  decide

/-- Witness for `C3` on a concrete well-formed store. -/
theorem assess_inbreeding_spec_witness :
    WFStore c3Family ∧
    ((assess_inbreeding c3Family "A" "B").1 = spec_relatedness c3Family "A" "B" ∧
    (∀ r1 r2, get_rabbit c3Family "A" = some r1 → get_rabbit c3Family "B" = some r2 →
      r1 ≠ r2 →
      ¬ (isRegisteredParentOf r1 r2 ∨ isRegisteredParentOf r2 r1) →
      (registeredParents r1).inter (registeredParents r2) ≠ [] →
      ((((∃ m, m ≠ 0 ∧ r1.mother_id = some m ∧ r2.mother_id = some m) ∧
         (∃ f, f ≠ 0 ∧ r1.father_id = some f ∧ r2.father_id = some f)) →
        (assess_inbreeding c3Family "A" "B").2 =
          "⚠️ DANGEROUS inbreeding: full siblings (parents: " ++
            sharedParentsStr c3Family ((pyParents r1).inter (pyParents r2)) ++ ").") ∧
       (¬ ((∃ m, m ≠ 0 ∧ r1.mother_id = some m ∧ r2.mother_id = some m) ∧
           (∃ f, f ≠ 0 ∧ r1.father_id = some f ∧ r2.father_id = some f)) →
        (assess_inbreeding c3Family "A" "B").2 =
          "⚠️ DANGEROUS inbreeding: half-siblings (shared parent(s): " ++
            sharedParentsStr c3Family ((pyParents r1).inter (pyParents r2)) ++ ")."))))
    :=
  have hwf : WFStore c3Family := ⟨by decide, by decide, by decide, by decide⟩
  ⟨hwf, assess_inbreeding_spec c3Family "A" "B" hwf⟩

/-! ## C4: growth statistics -/

theorem char_toNat_inj {a b : Char} (h : a.toNat = b.toNat) : a = b :=
  Char.eq_of_val_eq (UInt32.toNat.inj h)

theorem charsLt_irrefl : ∀ (a : List Char), charsLt a a = false
  | [] => rfl
  | a :: as => by
    simp only [charsLt]
    rw [if_neg (by omega : ¬ a.toNat < a.toNat), if_neg (by omega : ¬ a.toNat < a.toNat)]
    exact charsLt_irrefl as

theorem charsLt_asymm : ∀ (a b : List Char), charsLt a b = true → charsLt b a = false
  | [], [] => by simp [charsLt]
  | [], _ :: _ => by simp [charsLt]
  | _ :: _, [] => by simp [charsLt]
  | a :: as, b :: bs => by
    intro h
    simp only [charsLt] at h ⊢
    by_cases h1 : a.toNat < b.toNat
    · rw [if_neg (by omega : ¬ b.toNat < a.toNat), if_pos h1]
    · rw [if_neg h1] at h
      by_cases h2 : b.toNat < a.toNat
      · rw [if_pos h2] at h
        exact absurd h (by simp)
      · rw [if_neg h2] at h
        rw [if_neg h2, if_neg h1]
        exact charsLt_asymm as bs h

theorem charsLt_trans : ∀ (a b c : List Char),
    charsLt a b = true → charsLt b c = true → charsLt a c = true
  | [], b, c => by
    intro h1 h2
    cases c with
    | nil =>
      cases b with
      | nil => simp [charsLt] at h1
      | cons x xs => simp [charsLt] at h2
    | cons z zs => simp [charsLt]
  | _ :: _, [], _ => by
    intro h1 _
    simp [charsLt] at h1
  | _ :: _, _ :: _, [] => by
    intro _ h2
    simp [charsLt] at h2
  | a :: as, b :: bs, c :: cs => by
    intro h1 h2
    simp only [charsLt] at h1 h2 ⊢
    by_cases hab : a.toNat < b.toNat
    · by_cases hbc : b.toNat < c.toNat
      · rw [if_pos (by omega : a.toNat < c.toNat)]
      · by_cases hcb : c.toNat < b.toNat
        · rw [if_neg hbc, if_pos hcb] at h2
          exact absurd h2 (by simp)
        · rw [if_pos (by omega : a.toNat < c.toNat)]
    · by_cases hba : b.toNat < a.toNat
      · rw [if_neg hab, if_pos hba] at h1
        exact absurd h1 (by simp)
      · by_cases hbc : b.toNat < c.toNat
        · rw [if_pos (by omega : a.toNat < c.toNat)]
        · by_cases hcb : c.toNat < b.toNat
          · rw [if_neg hbc, if_pos hcb] at h2
            exact absurd h2 (by simp)
          · rw [if_neg hab, if_neg hba] at h1
            rw [if_neg hbc, if_neg hcb] at h2
            rw [if_neg (by omega : ¬ a.toNat < c.toNat),
                if_neg (by omega : ¬ c.toNat < a.toNat)]
            exact charsLt_trans as bs cs h1 h2

theorem charsLt_eq_of_not : ∀ (a b : List Char),
    charsLt a b = false → charsLt b a = false → a = b
  | [], [] => fun _ _ => rfl
  | [], _ :: _ => by
    intro h _
    simp [charsLt] at h
  | _ :: _, [] => by
    intro _ h
    simp [charsLt] at h
  | a :: as, b :: bs => by
    intro h1 h2
    simp only [charsLt] at h1 h2
    by_cases hab : a.toNat < b.toNat
    · rw [if_pos hab] at h1
      exact absurd h1 (by simp)
    · by_cases hba : b.toNat < a.toNat
      · rw [if_pos hba] at h2
        exact absurd h2 (by simp)
      · rw [if_neg hab, if_neg hba] at h1
        rw [if_neg hba, if_neg hab] at h2
        rw [char_toNat_inj (by omega : a.toNat = b.toNat),
            charsLt_eq_of_not as bs h1 h2]

/-- The content of `wDescLeB x y = true`: either `y`'s key is strictly below
`x`'s date, or the dates are equal and `y.id ≤ x.id`. -/
theorem wDescLeB_cases {x y : WeightRow} (h : wDescLeB x y = true) :
    charsLt y.weigh_date.data x.weigh_date.data = true ∨
    (y.weigh_date.data = x.weigh_date.data ∧ y.id ≤ x.id) := by
  unfold wDescLeB strLtB at h
  by_cases h1 : charsLt y.weigh_date.data x.weigh_date.data = true
  · exact Or.inl h1
  · rw [if_neg h1] at h
    by_cases h2 : charsLt x.weigh_date.data y.weigh_date.data = true
    · rw [if_pos h2] at h
      exact absurd h (by simp)
    · rw [if_neg h2] at h
      exact Or.inr ⟨charsLt_eq_of_not _ _ (by simpa using h1) (by simpa using h2),
        by simpa using h⟩

theorem wDescLeB_of_lt {x y : WeightRow}
    (h : charsLt y.weigh_date.data x.weigh_date.data = true) : wDescLeB x y = true := by
  unfold wDescLeB strLtB
  rw [if_pos h]

theorem wDescLeB_of_eq {x y : WeightRow} (hd : y.weigh_date.data = x.weigh_date.data)
    (hi : y.id ≤ x.id) : wDescLeB x y = true := by
  unfold wDescLeB strLtB
  rw [if_neg (by rw [hd]; simp [charsLt_irrefl]),
      if_neg (by rw [hd]; simp [charsLt_irrefl])]
  simpa using hi

theorem wDescLe_isTrans : IsTrans WeightRow wDescLe where
  trans := by
    intro a b c hab hbc
    rcases wDescLeB_cases hab with h1 | ⟨h1d, h1i⟩ <;>
      rcases wDescLeB_cases hbc with h2 | ⟨h2d, h2i⟩
    · exact wDescLeB_of_lt (charsLt_trans _ _ _ h2 h1)
    · exact wDescLeB_of_lt (by rw [h2d]; exact h1)
    · exact wDescLeB_of_lt (by rw [← h1d]; exact h2)
    · exact wDescLeB_of_eq (by rw [h2d, h1d]) (le_trans h2i h1i)

theorem wDescLe_isTotal : IsTotal WeightRow wDescLe where
  total := by
    intro a b
    by_cases h1 : charsLt b.weigh_date.data a.weigh_date.data = true
    · exact Or.inl (wDescLeB_of_lt h1)
    · by_cases h2 : charsLt a.weigh_date.data b.weigh_date.data = true
      · exact Or.inr (wDescLeB_of_lt h2)
      · have heq : a.weigh_date.data = b.weigh_date.data :=
          charsLt_eq_of_not _ _ (by simpa using h2) (by simpa using h1)
        rcases Nat.le_total b.id a.id with h | h
        · exact Or.inl (wDescLeB_of_eq heq.symm h)
        · exact Or.inr (wDescLeB_of_eq heq h)

theorem pairwise_head?_rel {α : Type} {R : α → α → Prop} {l : List α} {f : α}
    (h : List.Pairwise R l) (hf : l.head? = some f) : ∀ x ∈ l, x = f ∨ R f x := by
  cases l with
  | nil => simp at hf
  | cons y ys =>
    obtain rfl : y = f := by simpa using hf
    intro x hx
    rcases List.mem_cons.mp hx with rfl | hx
    · exact Or.inl rfl
    · exact Or.inr (List.rel_of_pairwise_cons h hx)

theorem pairwise_getLast?_rel {α : Type} {R : α → α → Prop} {l : List α} {g : α}
    (h : List.Pairwise R l) (hg : l.getLast? = some g) : ∀ x ∈ l, x = g ∨ R x g := by
  have h' : List.Pairwise (fun a b => R b a) l.reverse := List.pairwise_reverse.mpr h
  have hg' : l.reverse.head? = some g := by rw [List.head?_reverse]; exact hg
  intro x hx
  rcases pairwise_head?_rel h' hg' x (List.mem_reverse.mpr hx) with rfl | hr
  · exact Or.inl rfl
  · exact Or.inr hr

/-- `C4` (amended): for an existing rabbit, the valid-dated weight series is
ascending by stored date string (so its first entry is the earliest record
and its last the latest, within the window of the 1000 rows `get_weight_log`
retrieves); with fewer than two valid entries, or a non-positive day span
between the earliest and latest entry, the result is `insufficientData`
(`none`); otherwise `dailyGainGrams = (latestWeight − earliestWeight) /
elapsedDays × 1000`, `elapsedDays` is the day difference and `totalGainKg =
latestWeight − earliestWeight`. -/
theorem get_growth_stats_spec (s : Store) (name : String) (r : Rabbit)
    (hr : get_rabbit s name = some r) :
    (∀ x ∈ growthDataOf s name, parseIsoDate x.2.2 = some x.1) ∧
    (∀ f, (growthDataOf s name).head? = some f →
      ∀ x ∈ growthDataOf s name, strLtB x.2.2 f.2.2 = false) ∧
    (∀ g, (growthDataOf s name).getLast? = some g →
      ∀ x ∈ growthDataOf s name, strLtB g.2.2 x.2.2 = false) ∧
    ((growthDataOf s name).length < 2 → get_growth_stats s name = none) ∧
    (∀ f g, (growthDataOf s name).head? = some f →
      (growthDataOf s name).getLast? = some g →
      2 ≤ (growthDataOf s name).length →
      (((g.1 : Int) - (f.1 : Int) ≤ 0 → get_growth_stats s name = none) ∧
       (0 < (g.1 : Int) - (f.1 : Int) →
         get_growth_stats s name =
           some ((g.2.1 - f.2.1) / (((g.1 : Int) - (f.1 : Int) : Int) : ℚ) * 1000,
                 (g.1 : Int) - (f.1 : Int), g.2.1 - f.2.1)))) := by
  have hwl : get_weight_log s name 1000 =
      (some r, (List.insertionSort wDescLe
        (s.weights.filter (fun w => w.rabbit_id == r.id))).take 1000) := by
    unfold get_weight_log
    rw [hr]
  have hrows : (get_weight_log s name 1000).2 =
      (List.insertionSort wDescLe
        (s.weights.filter (fun w => w.rabbit_id == r.id))).take 1000 := by
    rw [hwl]
  have hsorted : List.Pairwise wDescLe (get_weight_log s name 1000).2 := by
    haveI := wDescLe_isTrans
    haveI := wDescLe_isTotal
    rw [hrows]
    exact List.Pairwise.sublist (List.take_sublist _ _)
      (List.sorted_insertionSort wDescLe _)
  have hpar : List.Pairwise (fun x y : Nat × ℚ × String => strLtB y.2.2 x.2.2 = false)
      (growthDataOf s name) := by
    unfold growthDataOf growthData
    apply List.Pairwise.filterMap
    · intro a a' hrel b hb b' hb'
      rw [Option.mem_def] at hb hb'
      rcases Option.map_eq_some'.mp hb with ⟨o, ho, rfl⟩
      rcases Option.map_eq_some'.mp hb' with ⟨o', ho', rfl⟩
      show strLtB a'.weigh_date a.weigh_date = false
      rcases wDescLeB_cases hrel with hlt | ⟨heq, -⟩
      · exact charsLt_asymm _ _ hlt
      · unfold strLtB
        rw [← heq]
        exact charsLt_irrefl _
    · exact List.pairwise_reverse.mpr hsorted
  have hdlen : (growthDataOf s name).length ≤ (get_weight_log s name 1000).2.length := by
    unfold growthDataOf growthData
    calc (List.filterMap _ (get_weight_log s name 1000).2.reverse).length
        ≤ (get_weight_log s name 1000).2.reverse.length := List.length_filterMap_le _ _
      _ = (get_weight_log s name 1000).2.length := List.length_reverse _
  refine ⟨?_, ?_, ?_, ?_, ?_⟩
  · intro x hx
    unfold growthDataOf growthData at hx
    rcases List.mem_filterMap.mp hx with ⟨w, _, hfw⟩
    rcases Option.map_eq_some'.mp hfw with ⟨o, ho, rfl⟩
    exact ho
  · intro f hf x hx
    rcases pairwise_head?_rel hpar hf x hx with rfl | hrel
    · exact charsLt_irrefl _
    · exact hrel
  · intro g hg x hx
    rcases pairwise_getLast?_rel hpar hg x hx with rfl | hrel
    · exact charsLt_irrefl _
    · exact hrel
  · intro hlen
    unfold growthDataOf at hlen
    rw [hrows] at hlen
    unfold get_growth_stats
    rw [hwl]
    dsimp only
    by_cases hrl : ((List.insertionSort wDescLe
        (s.weights.filter (fun w => w.rabbit_id == r.id))).take 1000).length < 2
    · rw [if_pos hrl]
    · rw [if_neg hrl, if_pos hlen]
  · intro f g hf hg hlen
    have hrl : ¬ ((List.insertionSort wDescLe
        (s.weights.filter (fun w => w.rabbit_id == r.id))).take 1000).length < 2 := by
      have := hdlen
      rw [hrows] at this
      omega
    have hlen' : ¬ (growthData ((List.insertionSort wDescLe
        (s.weights.filter (fun w => w.rabbit_id == r.id))).take 1000)).length < 2 := by
      unfold growthDataOf at hlen
      rw [hrows] at hlen
      omega
    obtain ⟨f1, f2, f3⟩ := f
    obtain ⟨g1, g2, g3⟩ := g
    unfold growthDataOf at hf hg
    rw [hrows] at hf hg
    unfold get_growth_stats
    rw [hwl]
    dsimp only
    rw [if_neg hrl, if_neg hlen', hf, hg]
    dsimp only
    constructor
    · intro h
      rw [if_pos h]
    · intro h
      rw [if_neg (by omega)]

/-- Witness for `C4` on a concrete two-record store. -/
theorem get_growth_stats_spec_witness :
    get_rabbit wsG "G" = some { id := 1, name := "G", sex := Sex.M } ∧
    ((∀ x ∈ growthDataOf wsG "G", parseIsoDate x.2.2 = some x.1) ∧
    (∀ f, (growthDataOf wsG "G").head? = some f →
      ∀ x ∈ growthDataOf wsG "G", strLtB x.2.2 f.2.2 = false) ∧
    (∀ g, (growthDataOf wsG "G").getLast? = some g →
      ∀ x ∈ growthDataOf wsG "G", strLtB g.2.2 x.2.2 = false) ∧
    ((growthDataOf wsG "G").length < 2 → get_growth_stats wsG "G" = none) ∧
    (∀ f g, (growthDataOf wsG "G").head? = some f →
      (growthDataOf wsG "G").getLast? = some g →
      2 ≤ (growthDataOf wsG "G").length →
      (((g.1 : Int) - (f.1 : Int) ≤ 0 → get_growth_stats wsG "G" = none) ∧
       (0 < (g.1 : Int) - (f.1 : Int) →
         get_growth_stats wsG "G" =
           some ((g.2.1 - f.2.1) / (((g.1 : Int) - (f.1 : Int) : Int) : ℚ) * 1000,
                 (g.1 : Int) - (f.1 : Int), g.2.1 - f.2.1))))) :=
  ⟨by decide, get_growth_stats_spec wsG "G" { id := 1, name := "G", sex := Sex.M } (by decide)⟩

set_option maxRecDepth 1000000 in
/-- Counterexample to `C4` as stated: with 1001 valid-dated weight records,
`get_weight_log`'s `LIMIT 1000` drops the oldest record (dated 1500-01-01),
so the elapsed days the function returns span 2000-01-01..2999-01-01, not
the claim's earliest-to-latest span 1500-01-01..2999-01-01. -/
theorem growth_window_cx :
    bigStore.weights.length = 1001 ∧
    (bigStore.weights.all (fun w => (parseIsoDate w.weigh_date).isSome)) = true ∧
    (bigStore.weights.getLast?).map (fun w => w.weigh_date) = some "1500-01-01" ∧
    parseIsoDate "1500-01-01" = some (civilToDays 1500 1 1) ∧
    (get_growth_stats bigStore "Big").map (fun t => t.2.1) =
      some ((civilToDays 2999 1 1 : Int) - (civilToDays 2000 1 1 : Int)) ∧
    ((civilToDays 2999 1 1 : Int) - (civilToDays 2000 1 1 : Int) ≠
      (civilToDays 2999 1 1 : Int) - (civilToDays 1500 1 1 : Int)) := by
  refine ⟨by decide, by decide, by decide, by decide, by decide, by decide⟩

/-! ## C6: breeding-pair suggestion -/

theorem scoreGe_isTrans : IsTrans (ℚ × String × String × String) scoreGe :=
  ⟨fun _ _ _ hab hbc => le_trans hbc hab⟩

theorem scoreGe_isTotal : IsTotal (ℚ × String × String × String) scoreGe :=
  ⟨fun a b => (le_total b.1 a.1).imp id id⟩

theorem find?_name_self : ∀ (l : List Rabbit) (r : Rabbit),
    (l.map (·.name)).Nodup → r ∈ l → l.find? (fun x => x.name == r.name) = some r
  | [], r => by simp
  | x :: xs, r => by
    intro hnd hr
    rw [List.map_cons, List.nodup_cons] at hnd
    rcases List.mem_cons.mp hr with rfl | hr
    · rw [List.find?_cons_of_pos _ (by simp)]
    · have hx : x.name ≠ r.name := by
        intro h
        exact hnd.1 (h ▸ List.mem_map_of_mem (·.name) hr)
      rw [List.find?_cons_of_neg _ (by simpa using hx)]
      exact find?_name_self xs r hnd.2 hr

theorem get_rabbit_self {s : Store} {r : Rabbit} (hwf : WFStore s) (hr : r ∈ s.rabbits) :
    get_rabbit s r.name = some r :=
  find?_name_self s.rabbits r hwf.namesNodup hr

theorem assess_severity_cases {s : Store} {n1 n2 : String} {r1 r2 : Rabbit}
    (h1 : get_rabbit s n1 = some r1) (h2 : get_rabbit s n2 = some r2)
    (hne : r1.id ≠ r2.id) :
    (assess_inbreeding s n1 n2).1 = "danger" ∨ (assess_inbreeding s n1 n2).1 = "warning" ∨
    (assess_inbreeding s n1 n2).1 = "none" := by
  unfold assess_inbreeding
  rw [h1, h2]
  dsimp only
  rw [if_neg hne]
  by_cases hpo : (r1.id ∈ pyParents r2 ∨ r2.id ∈ pyParents r1)
  · rw [if_pos hpo]
    left
    rfl
  · rw [if_neg hpo]
    by_cases hsib : (pyParents r1).inter (pyParents r2) ≠ []
    · rw [if_pos hsib]
      left
      split <;> rfl
    · rw [if_neg hsib]
      by_cases hgp : (grandparents_ids s r1).inter (grandparents_ids s r2) ≠ []
      · rw [if_pos hgp]
        right
        left
        split <;> rfl
      · rw [if_neg hgp]
        right
        right
        rfl

theorem pairScore_eq_specScore (s : Store) (d b : Rabbit)
    (hsev : (assess_inbreeding s d.name b.name).1 = "none" ∨
            (assess_inbreeding s d.name b.name).1 = "warning") :
    pairScore s d b = specScore s d b := by
  unfold pairScore specScore
  dsimp only
  have hgrowth : (match get_growth_stats s d.name with
      | some (daily_g, _, _) => if daily_g ≠ 0 then daily_g / 10 else 0
      | none => 0) =
      (match get_growth_stats s d.name with
      | some (daily_g, _, _) => daily_g / 10
      | none => (0 : ℚ)) := by
    cases hg : get_growth_stats s d.name with
    | none => rfl
    | some t =>
      obtain ⟨g, t2a, t2b⟩ := t
      dsimp only
      by_cases hz : g = 0
      · subst hz
        norm_num
      · rw [if_pos hz]
  rcases hsev with h | h <;> rw [h]
  · rw [if_pos rfl, if_pos rfl, hgrowth]
    ring
  · rw [if_neg (by decide : ¬ ("warning" : String) = "none"),
        if_neg (by decide : ¬ ("warning" : String) = "none"),
        if_pos rfl, hgrowth]
    ring

/-- `C6`: `suggest_breeding_pairs` returns at most `limit` entries, sorted
descending by score (it is a pure function of the store, hence
deterministic); every entry is an active doe paired with an active buck,
never a `"danger"`-classified pair, its relatedness is Safe or Warning, and
its score is the claim's formula `specScore`. -/
theorem suggest_breeding_pairs_spec (s : Store) (limit : Nat) (hwf : WFStore s) :
    (suggest_breeding_pairs s limit).length ≤ limit ∧
    List.Sorted scoreGe (suggest_breeding_pairs s limit) ∧
    (∀ p ∈ suggest_breeding_pairs s limit, ∃ d b,
      d ∈ s.rabbits ∧ d.sex = Sex.F ∧ d.status = "active" ∧
      b ∈ s.rabbits ∧ b.sex = Sex.M ∧ b.status = "active" ∧
      (assess_inbreeding s d.name b.name).1 ≠ "danger" ∧
      ((assess_inbreeding s d.name b.name).1 = "none" ∨
       (assess_inbreeding s d.name b.name).1 = "warning") ∧
      p = (specScore s d b, d.name, b.name, (assess_inbreeding s d.name b.name).1)) := by
  unfold suggest_breeding_pairs
  dsimp only
  by_cases hempty : (List.insertionSort rNameLe
      (s.rabbits.filter (fun r => r.sex == Sex.F && r.status == "active"))) = [] ∨
      (List.insertionSort rNameLe
        (s.rabbits.filter (fun r => r.sex == Sex.M && r.status == "active"))) = []
  · rw [if_pos hempty]
    refine ⟨Nat.zero_le _, List.sorted_nil, ?_⟩
    intro p hp
    exact absurd hp (List.not_mem_nil p)
  · rw [if_neg hempty]
    refine ⟨?_, ?_, ?_⟩
    · exact List.length_take_le _ _
    · haveI := scoreGe_isTrans
      haveI := scoreGe_isTotal
      exact List.Pairwise.sublist (List.take_sublist _ _)
        (List.sorted_insertionSort scoreGe _)
    · intro p hp
      have hp2 : p ∈ (List.insertionSort rNameLe
          (s.rabbits.filter (fun r => r.sex == Sex.F && r.status == "active"))).flatMap
          (fun d => (List.insertionSort rNameLe
            (s.rabbits.filter (fun r => r.sex == Sex.M && r.status == "active"))).filterMap
            (fun b =>
              if (assess_inbreeding s d.name b.name).1 = "danger" then none
              else some (pairScore s d b, d.name, b.name,
                (assess_inbreeding s d.name b.name).1))) :=
        (List.perm_insertionSort scoreGe _).mem_iff.mp (List.mem_of_mem_take hp)
      rcases List.mem_flatMap.mp hp2 with ⟨d, hd, hpd⟩
      rcases List.mem_filterMap.mp hpd with ⟨b, hb, hgb⟩
      have hd' := List.mem_filter.mp ((List.perm_insertionSort rNameLe _).mem_iff.mp hd)
      have hb' := List.mem_filter.mp ((List.perm_insertionSort rNameLe _).mem_iff.mp hb)
      obtain ⟨hdsex, hdstat⟩ : d.sex = Sex.F ∧ d.status = "active" := by
        simpa using hd'.2
      obtain ⟨hbsex, hbstat⟩ : b.sex = Sex.M ∧ b.status = "active" := by
        simpa using hb'.2
      by_cases hdanger : (assess_inbreeding s d.name b.name).1 = "danger"
      · rw [if_pos hdanger] at hgb
        exact absurd hgb (by simp)
      · rw [if_neg hdanger] at hgb
        have hptuple : p = (pairScore s d b, d.name, b.name,
            (assess_inbreeding s d.name b.name).1) := (Option.some.inj hgb).symm
        have hbid : d.id ≠ b.id := by
          intro h
          have hdb := rabbit_id_inj hwf hd'.1 hb'.1 h
          rw [hdb, hbsex] at hdsex
          exact absurd hdsex (by decide)
        have hsev := assess_severity_cases (get_rabbit_self hwf hd'.1)
          (get_rabbit_self hwf hb'.1) hbid
        have hsev2 : (assess_inbreeding s d.name b.name).1 = "none" ∨
            (assess_inbreeding s d.name b.name).1 = "warning" := by
          rcases hsev with h | h | h
          · exact absurd h hdanger
          · exact Or.inr h
          · exact Or.inl h
        refine ⟨d, b, hd'.1, hdsex, hdstat, hb'.1, hbsex, hbstat, hdanger, hsev2, ?_⟩
        rw [hptuple, pairScore_eq_specScore s d b hsev2]

/-- Witness for `C6` on a concrete well-formed store. -/
theorem suggest_breeding_pairs_spec_witness :
    WFStore c6Store ∧
    ((suggest_breeding_pairs c6Store 5).length ≤ 5 ∧
    List.Sorted scoreGe (suggest_breeding_pairs c6Store 5) ∧
    (∀ p ∈ suggest_breeding_pairs c6Store 5, ∃ d b,
      d ∈ c6Store.rabbits ∧ d.sex = Sex.F ∧ d.status = "active" ∧
      b ∈ c6Store.rabbits ∧ b.sex = Sex.M ∧ b.status = "active" ∧
      (assess_inbreeding c6Store d.name b.name).1 ≠ "danger" ∧
      ((assess_inbreeding c6Store d.name b.name).1 = "none" ∨
       (assess_inbreeding c6Store d.name b.name).1 = "warning") ∧
      p = (specScore c6Store d b, d.name, b.name,
        (assess_inbreeding c6Store d.name b.name).1))) :=
  have hwf : WFStore c6Store := ⟨by decide, by decide, by decide, by decide⟩
  ⟨hwf, suggest_breeding_pairs_spec c6Store 5 hwf⟩

end RabbitFarm
